import Mathlib

/-!
Verification development for the raycast2api translation layer
(`service/utls.go`, `service/types.go`, `service/handlers.go`).

Shallow embedding conventions:
- Go strings are modelled as `List Char` (`Str`); a Lean string literal
  `"s"` is converted with `.data`.
- `encoding/json` decoding is modelled by an executable JSON value type
  (`Json`), a fuel-based parser (`jsonParse`) for the textual layer, and
  Go-faithful unmarshal functions for the struct / map layers.
- Nondeterministic effects are passed explicitly: the stream of values
  produced by `uuid.New()` is a parameter `uu : Nat -> Str` consumed in
  call order, and `time.Now().Unix()` is a parameter `now : Int`.
- The HTTP writer is modelled by the list of emitted events.
-/

set_option autoImplicit false

/-- Go strings, modelled as lists of characters. -/
abbrev Str := List Char

/-- Whitespace recognised by `strings.TrimSpace` (ASCII cases of Unicode space). -/
def goIsSpace (c : Char) : Bool :=
  c = ' ' || c = '\t' || c = '\n' || c = '\x0b' || c = '\x0c' || c = '\x0d'

/-- Go `strings.TrimSpace`: drop whitespace from both ends. -/
def goTrimSpace (sx : Str) : Str :=
  ((sx.dropWhile goIsSpace).reverse.dropWhile goIsSpace).reverse

/-- Consume `pre` from the front of `sx`; `some rest` on success.
Shared engine for `strings.HasPrefix` / `strings.TrimPrefix`. -/
def strDropPre : Str → Str → Option Str
  | [], sx => some sx
  | _ :: _, [] => none
  | p :: ps, c :: cs => if p = c then strDropPre ps cs else none

/-- Go `strings.HasPrefix sx pre`. -/
def stringsHasPre (sx pre : Str) : Bool :=
  (strDropPre pre sx).isSome

/-- Go `strings.TrimPrefix sx pre`: remove `pre` if present, else return `sx`. -/
def stringsTrimPre (sx pre : Str) : Str :=
  match strDropPre pre sx with
  | some r => r
  | none => sx

/-- Go `strings.HasSuffix sx suf`, via reversal. -/
def stringsHasSuffix (sx suf : Str) : Bool :=
  (strDropPre suf.reverse sx.reverse).isSome

/-- Go `strings.Split sx "\n"` worker: accumulate the current piece. -/
def goSplitNLAux : Str → Str → List Str
  | acc, [] => [acc]
  | acc, c :: cs => if c = '\n' then acc :: goSplitNLAux [] cs else goSplitNLAux (acc ++ [c]) cs

/-- Go `strings.Split sx "\n"`. -/
def goSplitNL (sx : Str) : List Str := goSplitNLAux [] sx

/-- Drop one trailing carriage return (`dropCR` inside `bufio.ScanLines`). -/
def dropCR (l : Str) : Str :=
  match l.getLast? with
  | some c => if c = '\x0d' then l.dropLast else l
  | none => l

/-- Go `bufio.Scanner` with `ScanLines`: tokens are the newline-separated pieces,
without the newline, with one trailing `\r` removed; a final piece without a
newline is still returned, and a trailing newline yields no extra empty token. -/
def scanLinesAux : Str → Str → List Str
  | acc, [] => if acc = [] then [] else [dropCR acc]
  | acc, c :: cs => if c = '\n' then dropCR acc :: scanLinesAux [] cs else scanLinesAux (acc ++ [c]) cs

/-- All tokens produced by a `bufio.Scanner` over `sx`. -/
def scanLines (sx : Str) : List Str := scanLinesAux [] sx

/-- The `bufio.Reader.ReadString` loop as used by `handleStreamingResponse`:
the complete lines of the body, each including its trailing newline.  The final
partial line (returned together with `io.EOF`) is discarded, because the source
breaks out of the loop without using data returned alongside an error. -/
def readStringAux : Str → Str → List Str
  | _, [] => []
  | acc, c :: cs => if c = '\n' then (acc ++ [c]) :: readStringAux [] cs else readStringAux (acc ++ [c]) cs

/-- The sequence of lines read from the streaming body. -/
def readStringLines (body : Str) : List Str := readStringAux [] body

/-- JSON values as decoded by `encoding/json` into `interface\x7b\x7d`
(numbers idealised as rationals instead of `float64`). -/
inductive Json where
  | null
  | bool (b : Bool)
  | num (q : ℚ)
  | str (sv : Str)
  | arr (xs : List Json)
  | obj (fields : List (Str × Json))

/-- JSON insignificant whitespace. -/
def jsonWs (c : Char) : Bool :=
  c = ' ' || c = '\t' || c = '\n' || c = '\x0d'

/-- Skip insignificant whitespace. -/
def skipWs (cs : Str) : Str := cs.dropWhile jsonWs

/-- Translate a JSON escape character (`\uXXXX` escapes are not modelled). -/
def escChar (c : Char) : Option Char :=
  if c = 'n' then some '\n'
  else if c = 't' then some '\t'
  else if c = 'r' then some '\x0d'
  else if c = '"' then some '"'
  else if c = '\\' then some '\\'
  else if c = '/' then some '/'
  else if c = 'b' then some '\x08'
  else if c = 'f' then some '\x0c'
  else none

/-- Parse the body of a JSON string literal (after the opening quote),
returning the decoded characters and the remaining input. -/
def parseStringLit : Str → Option (Str × Str)
  | [] => none
  | c :: cs =>
    if c = '"' then some ([], cs)
    else if c = '\\' then
      match cs with
      | [] => none
      | e :: cs2 =>
        match escChar e with
        | some ec =>
          match parseStringLit cs2 with
          | some (sv, rest) => some (ec :: sv, rest)
          | none => none
        | none => none
    else
      match parseStringLit cs with
      | some (sv, rest) => some (c :: sv, rest)
      | none => none

/-- Decimal digit value. -/
def digitVal (c : Char) : Option ℕ :=
  if '0' ≤ c ∧ c ≤ '9' then some (c.toNat - '0'.toNat) else none

/-- Read a run of digits: value, digit count, and remaining input. -/
def parseDigitsAux : ℕ → ℕ → Str → (ℕ × ℕ × Str)
  | acc, n, [] => (acc, n, [])
  | acc, n, c :: cs =>
    match digitVal c with
    | some d => parseDigitsAux (acc * 10 + d) (n + 1) cs
    | none => (acc, n, c :: cs)

/-- Assemble a parsed JSON number (integer part, fraction, exponent). -/
def numValue (neg : Bool) (ip fp fc : ℕ) (e : ℤ) : ℚ :=
  let base : ℚ := (ip : ℚ) + (fp : ℚ) / ((10 : ℚ) ^ fc)
  let v := base * (10 : ℚ) ^ e
  if neg then -v else v

/-- Parse a JSON number (leading-zero rejection of `encoding/json` omitted). -/
def parseNumber (cs : Str) : Option (Json × Str) :=
  let p1 : Bool × Str :=
    match cs with
    | '-' :: t => (true, t)
    | _ => (false, cs)
  let (ipv, ic, cs2) := parseDigitsAux 0 0 p1.2
  if ic = 0 then none else
  let p3 : ℕ × ℕ × Str :=
    match cs2 with
    | '.' :: t => parseDigitsAux 0 0 t
    | _ => (0, 0, cs2)
  let badFrac : Bool :=
    match cs2 with
    | '.' :: _ => p3.2.1 = 0
    | _ => false
  if badFrac then none else
  match p3.2.2 with
  | 'e' :: t =>
    let p5 : ℤ × Str :=
      match t with
      | '+' :: t2 => (1, t2)
      | '-' :: t2 => (-1, t2)
      | _ => (1, t)
    let (ev, ec2, cs6) := parseDigitsAux 0 0 p5.2
    if ec2 = 0 then none
    else some (Json.num (numValue p1.1 ipv p3.1 p3.2.1 (p5.1 * (ev : ℤ))), cs6)
  | 'E' :: t =>
    let p5 : ℤ × Str :=
      match t with
      | '+' :: t2 => (1, t2)
      | '-' :: t2 => (-1, t2)
      | _ => (1, t)
    let (ev, ec2, cs6) := parseDigitsAux 0 0 p5.2
    if ec2 = 0 then none
    else some (Json.num (numValue p1.1 ipv p3.1 p3.2.1 (p5.1 * (ev : ℤ))), cs6)
  | _ => some (Json.num (numValue p1.1 ipv p3.1 p3.2.1 0), p3.2.2)

mutual

/-- Parse one JSON value (fuel-based recursive descent). -/
def parseValue : ℕ → Str → Option (Json × Str)
  | 0, _ => none
  | Nat.succ fuel, cs =>
    match skipWs cs with
    | [] => none
    | c :: rest =>
      if c = '"' then
        match parseStringLit rest with
        | some (sv, rest2) => some (Json.str sv, rest2)
        | none => none
      else if c = 't' then
        match strDropPre ("rue".data) rest with
        | some rest2 => some (Json.bool true, rest2)
        | none => none
      else if c = 'f' then
        match strDropPre ("alse".data) rest with
        | some rest2 => some (Json.bool false, rest2)
        | none => none
      else if c = 'n' then
        match strDropPre ("ull".data) rest with
        | some rest2 => some (Json.null, rest2)
        | none => none
      else if c = '[' then
        match skipWs rest with
        | ']' :: rest2 => some (Json.arr [], rest2)
        | _ =>
          match parseElems fuel rest with
          | some (xs, rest2) => some (Json.arr xs, rest2)
          | none => none
      else if c = '\x7b' then
        match skipWs rest with
        | '\x7d' :: rest2 => some (Json.obj [], rest2)
        | _ =>
          match parseMembers fuel rest with
          | some (ms, rest2) => some (Json.obj ms, rest2)
          | none => none
      else
        parseNumber (c :: rest)

/-- Parse the elements of a nonempty JSON array, up to the closing bracket. -/
def parseElems : ℕ → Str → Option (List Json × Str)
  | 0, _ => none
  | Nat.succ fuel, cs =>
    match parseValue fuel cs with
    | some (j, rest) =>
      match skipWs rest with
      | ',' :: rest2 =>
        match parseElems fuel rest2 with
        | some (xs, rest3) => some (j :: xs, rest3)
        | none => none
      | ']' :: rest2 => some ([j], rest2)
      | _ => none
    | none => none

/-- Parse the members of a nonempty JSON object, up to the closing brace. -/
def parseMembers : ℕ → Str → Option (List (Str × Json) × Str)
  | 0, _ => none
  | Nat.succ fuel, cs =>
    match skipWs cs with
    | '"' :: rest =>
      match parseStringLit rest with
      | some (key, rest2) =>
        match skipWs rest2 with
        | ':' :: rest3 =>
          match parseValue fuel rest3 with
          | some (v, rest4) =>
            match skipWs rest4 with
            | ',' :: rest5 =>
              match parseMembers fuel rest5 with
              | some (ms, rest6) => some ((key, v) :: ms, rest6)
              | none => none
            | '\x7d' :: rest5 => some ([(key, v)], rest5)
            | _ => none
          | none => none
        | _ => none
      | none => none
    | _ => none

end

/-- Full `encoding/json` parse of an input: one value, then only whitespace. -/
def jsonParse (cs : Str) : Option Json :=
  match parseValue (cs.length + 8) cs with
  | some (j, rest) => if skipWs rest = [] then some j else none
  | none => none

/-! ## Go unmarshal layer (`service/types.go`) -/

/-- Lookup in a Go `map[string]interface\x7b\x7d` built from a JSON object:
for duplicate keys the last value wins. -/
def lastLookup : List (Str × Json) → Str → Option Json
  | [], _ => none
  | (k, v) :: rest, key =>
    match lastLookup rest key with
    | some r => some r
    | none => if k = key then some v else none

/-- Struct `RaycastSSEData` (`types.go`): `\x7btext, finish_reason\x7d`, both optional. -/
structure RaycastSSEData where
  text : Str
  finishReason : Str
deriving DecidableEq

/-- Go `json.Unmarshal` into `RaycastSSEData`: succeeds on `null` (fields keep
their zero values) or on an object whose `text` / `finish_reason` members are
strings or `null`; any other top-level shape or member type is an error.
Unknown members are ignored (Go does not reject unknown fields here). -/
def unmarshalRaycastSSE (j : Json) : Option RaycastSSEData :=
  match j with
  | .null => some ⟨[], []⟩
  | .obj fields =>
    fields.foldl
      (fun acc kv =>
        match acc with
        | none => none
        | some r =>
          if kv.1 = ("text".data) then
            match kv.2 with
            | .str t => some { r with text := t }
            | .null => some r
            | _ => none
          else if kv.1 = ("finish_reason".data) then
            match kv.2 with
            | .str f => some { r with finishReason := f }
            | .null => some r
            | _ => none
          else some r)
      (some ⟨[], []⟩)
  | _ => none

/-- Go `json.Unmarshal` into `map[string]interface\x7b\x7d`: requires a JSON
object (or `null`, which leaves a nil map). -/
def unmarshalMap : Json → Option (List (Str × Json))
  | .obj fields => some fields
  | .null => some []
  | _ => none

/-- Map lookup followed by a `.(string)` type assertion. -/
def lookupString (g : List (Str × Json)) (k : Str) : Option Str :=
  match lastLookup g k with
  | some (.str sv) => some sv
  | _ => none

/-- Map lookup and `.(string)` assertion combined with the `!= ""` guard used
throughout `utls.go` (`ok && value != ""`). -/
def lookupStringNE (g : List (Str × Json)) (k : Str) : Option Str :=
  match lookupString g k with
  | some sv => if sv = [] then none else some sv
  | none => none

/-! ## Message Adapter (`convertMessages`, `utls.go` lines 31-66) -/

/-- Struct `OpenAIMessage` (`types.go`): role plus dynamically typed content. -/
structure OpenAIMessage where
  role : Str
  content : Json

/-- Struct `RaycastMessage` (`types.go`); the nested one-field `content` struct is
flattened to `contentText`. -/
structure RaycastMessage where
  author : Str
  contentText : Str
deriving DecidableEq

/-- Content resolution inside `convertMessages`: a Go type switch on the
decoded `content` value.  Strings are used verbatim; arrays are folded,
appending the `text` member of each map-shaped part whose `type` member
equals `"text"`; every other shape contributes the zero value `""`. -/
def resolveContent : Json → Str
  | .str content => content
  | .arr parts =>
    parts.foldl
      (fun acc part =>
        match part with
        | .obj partMap =>
          match lastLookup partMap ("type".data) with
          | some (.str t) =>
            if t = ("text".data) then
              match lastLookup partMap ("text".data) with
              | some (.str textValue) => acc ++ textValue
              | _ => acc
            else acc
          | _ => acc
        | _ => acc)
      []
  | _ => []

/-- Function `convertMessages` (`utls.go`): OpenAI turns to Raycast turns. -/
def convertMessages (openaiMessages : List OpenAIMessage) : List RaycastMessage :=
  openaiMessages.map fun msg =>
    { author := if msg.role = ("assistant".data) then ("assistant".data) else ("user".data)
      contentText := resolveContent msg.content }

/-! ## Event extraction (`parseSSEResponse`, `utls.go` lines 69-182) -/

/-- Text contributed by one scanned line of `parseSSEResponse`: empty and
non-`data:` lines contribute nothing; the `[DONE]` sentinel is skipped; a
payload is first unmarshalled strictly as `RaycastSSEData`, and only when
that errors is it re-parsed as a generic object and searched for a top-level
`text` string, then a top-level `content` string, then a `content` string
inside a `message` object (each with the source's non-emptiness guard). -/
def sseLineText (line : Str) : Str :=
  if line = [] then []
  else if stringsHasPre line ("data:".data) then
    let data := goTrimSpace (stringsTrimPre line ("data:".data))
    if data = ("[DONE]".data) then []
    else
      match jsonParse data with
      | none => []
      | some j =>
        match unmarshalRaycastSSE j with
        | some jsonData =>
          -- the source appends only when the text field is non-empty;
          -- appending the empty string is recorded identically
          if jsonData.text = [] then [] else jsonData.text
        | none =>
          match unmarshalMap j with
          | none => []
          | some genericData =>
            match lookupStringNE genericData ("text".data) with
            | some t => t
            | none =>
              match lookupStringNE genericData ("content".data) with
              | some t => t
              | none =>
                match lastLookup genericData ("message".data) with
                | some (.obj message) =>
                  match lookupStringNE message ("content".data) with
                  | some t => t
                  | none => []
                | _ => []
  else []

/-- Function `parseSSEResponse`: early return on an all-whitespace body, otherwise
concatenate the per-line extractions in scan order.  The final whole-response
regex pass of the source only logs candidate objects and never changes the
returned text, so it is not modelled. -/
def parseSSEResponse (responseText : Str) : Str :=
  if goTrimSpace responseText = [] then []
  else (scanLines responseText).foldl (fun fullText line => fullText ++ sseLineText line) []

/-! ## Whole-body fallback (`extractTextFromJSON`, `utls.go` lines 435-475) -/

/-- Pattern 2 of `extractTextFromJSON`: inspect `choices[0]`, trying
`message.content`, then `delta.content` (each a string type assertion plus a
non-emptiness guard). -/
def choicesExtract (jsonData : List (Str × Json)) : Option Str :=
  match lastLookup jsonData ("choices".data) with
  | some (.arr (choice0 :: _)) =>
    match choice0 with
    | .obj choice =>
      match
        (match lastLookup choice ("message".data) with
         | some (.obj message) => lookupStringNE message ("content".data)
         | _ => none)
      with
      | some c => some c
      | none =>
        match lastLookup choice ("delta".data) with
        | some (.obj delta) => lookupStringNE delta ("content".data)
        | _ => none
    | _ => none
  | _ => none

/-- Function `extractTextFromJSON`: ordered fall-through over the four patterns of the
source, returning `""` when nothing matches. -/
def extractTextFromJSON (jsonData : List (Str × Json)) : Str :=
  match lookupStringNE jsonData ("content".data) with
  | some content => content
  | none =>
    match choicesExtract jsonData with
    | some c => c
    | none =>
      match lookupStringNE jsonData ("text".data) with
      | some t => t
      | none =>
        match lookupStringNE jsonData ("completion".data) with
        | some completion => completion
        | none => []

/-! ## Non-streaming path (`handleNonStreamingResponse`, `utls.go` 289-432) -/

/-- The direct-JSON fallback of `handleNonStreamingResponse` (lines 317-327):
parse the entire body as one JSON object and run `extractTextFromJSON`;
yields `""` when the body is not a JSON object. -/
def directJSONExtract (bodyBytes : Str) : Str :=
  match (jsonParse bodyBytes).bind unmarshalMap with
  | some directJsonResponse => extractTextFromJSON directJsonResponse
  | none => []

/-- The fixed "extraction failed" notice substituted at line 332. -/
def extractionFailedNotice : Str :=
  "抱歉，无法提取响应内容。请尝试重新发送请求或联系管理员检查服务器日志。".data

/-- The answer text of the non-streaming path: SSE extraction, then the
direct-JSON fallback, then the fixed notice.  (The source only overwrites
`fullText` with the direct extraction when it is non-empty and then replaces
a still-empty `fullText` by the notice; the net result is identical.) -/
def nonStreamingText (bodyBytes : Str) : Str :=
  let fullText := parseSSEResponse bodyBytes
  if fullText = [] then
    let extracted := directJSONExtract bodyBytes
    if extracted = [] then extractionFailedNotice else extracted
  else fullText

/-- Message part of `OpenAIChatResponse` (`types.go`). -/
structure ChatMessage where
  role : Str
  content : Str
  refusal : Option Str
  annotationList : List Str
deriving DecidableEq

/-- One element of `choices` in `OpenAIChatResponse`. -/
structure ChatChoice where
  index : ℕ
  message : ChatMessage
  logprobs : Option Str
  finishReason : Str
deriving DecidableEq

/-- The synthetic `usage` block (nested structs flattened). -/
structure UsageBlock where
  promptTokens : ℕ
  completionTokens : ℕ
  totalTokens : ℕ
  cachedTokens : ℕ
  promptAudioTokens : ℕ
  reasoningTokens : ℕ
  completionAudioTokens : ℕ
  acceptedPredictionTokens : ℕ
  rejectedPredictionTokens : ℕ
deriving DecidableEq

/-- Struct `OpenAIChatResponse` (`types.go`). -/
structure OpenAIChatResponse where
  id : Str
  object : Str
  created : ℤ
  model : Str
  choices : List ChatChoice
  usage : UsageBlock
  serviceTier : Str
  systemFingerprint : Str
deriving DecidableEq

/-- Function `handleNonStreamingResponse`: builds the single outbound response
document.  `uu` is the value drawn from `uuid.New()`, `now` the wall clock.
The body-read and re-serialisation error branches of the source concern the
transport, not extraction, and cannot fire in this pure model. -/
def handleNonStreamingResponse (bodyBytes : Str) (uu : Str) (now : ℤ) (modelId : Str) :
    OpenAIChatResponse :=
  { id := ("chatcmpl-".data) ++ uu
    object := "chat.completion".data
    created := now
    model := modelId
    choices :=
      [{ index := 0
         message :=
           { role := "assistant".data
             content := nonStreamingText bodyBytes
             refusal := none
             annotationList := [] }
         logprobs := none
         finishReason := "length".data }]
    usage := ⟨10, 10, 20, 0, 0, 0, 0, 0, 0⟩
    serviceTier := "default".data
    systemFingerprint := "fp_b376dfbbd5".data }

/-! ## Streaming path (`handleStreamingResponse`, `utls.go` lines 185-286) -/

/-- One outbound streaming chunk (the anonymous struct of lines 233-267,
with the single `choices` element flattened into the chunk). -/
structure StreamChunk where
  id : Str
  object : Str
  created : ℤ
  model : Str
  index : ℕ
  deltaContent : Str
  finishReason : Str
deriving DecidableEq

/-- One event written to the outbound stream: a data chunk or the final
`data: [DONE]` sentinel. -/
inductive OutEvent where
  | chunk (c : StreamChunk)
  | done
deriving DecidableEq

/-- Chunk construction (lines 245-267): `u` is the uuid drawn for this chunk. -/
def mkChunk (u : Str) (now : ℤ) (modelId : Str) (r : RaycastSSEData) : StreamChunk :=
  { id := ("chatcmpl-".data) ++ u
    object := "chat.completion.chunk".data
    created := now
    model := modelId
    index := 0
    deltaContent := r.text
    finishReason := r.finishReason }

/-- Dispatch of one line of a flushed buffer (lines 219-278): blank lines are
skipped; a `data:` line is trimmed and strictly unmarshalled; parse failures
are skipped; success emits one chunk built with a fresh uuid. -/
def dispatchLine (l : Str) (ctr : ℕ) (uu : ℕ → Str) (now : ℤ) (modelId : Str) :
    Option StreamChunk :=
  if goTrimSpace l = [] then none
  else if stringsHasPre l ("data:".data) then
    let data := goTrimSpace (stringsTrimPre l ("data:".data))
    match (jsonParse data).bind unmarshalRaycastSSE with
    | some jsonData => some (mkChunk (uu ctr) now modelId jsonData)
    | none => none
  else none

/-- Dispatch a whole flushed buffer, threading the uuid counter. -/
def dispatchGroup (ls : List Str) (ctr : ℕ) (uu : ℕ → Str) (now : ℤ) (modelId : Str) :
    List StreamChunk × ℕ :=
  match ls with
  | [] => ([], ctr)
  | l :: rest =>
    match dispatchLine l ctr uu now modelId with
    | some c =>
      let (cs, ctr2) := dispatchGroup rest (ctr + 1) uu now modelId
      (c :: cs, ctr2)
    | none => dispatchGroup rest ctr uu now modelId

/-- The read loop of `handleStreamingResponse` (lines 202-281): append each
read line to the buffer; when the buffer ends in a blank line, split it on
newlines, dispatch every line, and clear the buffer.  Returns the emitted
chunks, the leftover (never dispatched) buffer, and the final uuid counter. -/
def streamLoopFull (reads : List Str) (buffer : Str) (ctr : ℕ)
    (uu : ℕ → Str) (now : ℤ) (modelId : Str) : List StreamChunk × Str × ℕ :=
  match reads with
  | [] => ([], buffer, ctr)
  | line :: rest =>
    let buffer2 := buffer ++ line
    if stringsHasSuffix buffer2 ("\n\n".data) then
      let (cs, ctr2) := dispatchGroup (goSplitNL buffer2) ctr uu now modelId
      let (cs2, b3, ctr3) := streamLoopFull rest [] ctr2 uu now modelId
      (cs ++ cs2, b3, ctr3)
    else
      streamLoopFull rest buffer2 ctr uu now modelId

/-- The data chunks emitted for one streaming response body. -/
def streamChunks (body : Str) (uu : ℕ → Str) (now : ℤ) (modelId : Str) : List StreamChunk :=
  (streamLoopFull (readStringLines body) [] 0 uu now modelId).1

/-- Function `handleStreamingResponse`: all emitted chunks in order, followed by the
single `data: [DONE]` sentinel written after the loop. -/
def handleStreamingResponse (body : Str) (uu : ℕ → Str) (now : ℤ) (modelId : Str) :
    List OutEvent :=
  (streamChunks body uu now modelId).map OutEvent.chunk ++ [OutEvent.done]

/-! ## Temperature handling (`handleChatCompletions`, `handlers.go` 257-261,
with the custom `OpenAIChatRequest.UnmarshalJSON` of `types.go`) -/

/-- The `Temperature` field after `UnmarshalJSON`: the raw map's
`temperature` member when it is a number (`float64` assertion), otherwise the
zero value `0`. -/
def parsedTemperature (rawMap : List (Str × Json)) : ℚ :=
  match lastLookup rawMap ("temperature".data) with
  | some (.num v) => v
  | _ => 0

/-- Lines 257-261 of `handlers.go`: a temperature equal to `0` is replaced by
the default `0.5` before the request is forwarded. -/
def effectiveTemperature (rawMap : List (Str × Json)) : ℚ :=
  let temperature := parsedTemperature rawMap
  if temperature = 0 then 1 / 2 else temperature

/-! ## Spec-side definitions -/

/-- Modelled from the spec's words (section 4.1): the contribution of one
typed part — the `text` value of a part whose type is `"text"`, nothing for
every other part; a malformed `text` value degrades to empty text. -/
def specPartText : Json → Str
  | .obj partMap =>
    (match lastLookup partMap ("type".data) with
     | some (.str t) =>
       if t = ("text".data) then
         match lastLookup partMap ("text".data) with
         | some (.str textValue) => textValue
         | _ => []
       else []
     | _ => [])
  | _ => []

/-- Modelled from the spec's words (section 4.1): content resolution — a
plain string verbatim, an array as the in-order concatenation of its text
parts, any other shape as the empty string. -/
def specResolveContent : Json → Str
  | .str c => c
  | .arr parts => (parts.map specPartText).flatten
  | _ => []

/-- Keep an optional string only when present and non-empty. -/
def nonEmptyOpt : Option Str → Option Str
  | some t => if t = [] then none else some t
  | none => none

/-- Modelled from the spec's words (section 4.4 step 2): the string at path
`choices[0].<field>.content`. -/
def choice0PathContent (g : List (Str × Json)) (field : Str) : Option Str :=
  match lastLookup g ("choices".data) with
  | some (.arr (choice0 :: _)) =>
    match choice0 with
    | .obj choice =>
      match lastLookup choice field with
      | some (.obj inner) => lookupString inner ("content".data)
      | _ => none
    | _ => none
  | _ => none

/-- Modelled from the spec's words: the extended field-search order of the
whole-body fallback. -/
def specCandidates (g : List (Str × Json)) : List (Option Str) :=
  [lookupString g ("content".data),
   choice0PathContent g ("message".data),
   choice0PathContent g ("delta".data),
   lookupString g ("text".data),
   lookupString g ("completion".data)]

/-- Modelled from the spec's words: first non-empty match wins, else `""`. -/
def firstNonEmptyMatch : List (Option Str) → Str
  | [] => []
  | o :: rest =>
    match nonEmptyOpt o with
    | some t => t
    | none => firstNonEmptyMatch rest

/-- Modelled from the spec's words: the whole search. -/
def specFieldSearch (g : List (Str × Json)) : Str :=
  firstNonEmptyMatch (specCandidates g)

theorem foldl_map_join (g : Json → Str) (f : Str → Json → Str)
    (hf : ∀ acc p, f acc p = acc ++ g p) :
    ∀ (l : List Json) (acc : Str), l.foldl f acc = acc ++ (l.map g).flatten := by
  intro l
  induction l with
  | nil => intro acc; simp
  | cons p rest ih =>
    intro acc
    simp only [List.foldl_cons, hf, List.map_cons, List.flatten_cons, ih, List.append_assoc]

theorem resolveContent_fold_body (acc : Str) (part : Json) :
    (match part with
     | .obj partMap =>
       (match lastLookup partMap ("type".data) with
        | some (.str t) =>
          if t = ("text".data) then
            match lastLookup partMap ("text".data) with
            | some (.str textValue) => acc ++ textValue
            | _ => acc
          else acc
        | _ => acc)
     | _ => acc) = acc ++ specPartText part := by
  cases part <;> simp only [specPartText, List.append_nil]
  case obj fields =>
    cases h : lastLookup fields ("type".data) with
    | none => simp
    | some v =>
      cases v <;> simp only [List.append_nil]
      case str t =>
        by_cases ht : t = ("text".data)
        · simp only [ht, if_pos rfl]
          cases h2 : lastLookup fields ("text".data) with
          | none => simp
          | some w => cases w <;> simp
        · simp [ht]

theorem resolveContent_eq_spec (content : Json) :
    resolveContent content = specResolveContent content := by
  cases content <;> try rfl
  case arr parts =>
    show parts.foldl _ [] = (parts.map specPartText).flatten
    rw [foldl_map_join specPartText _ (fun acc p => resolveContent_fold_body acc p) parts []]
    simp

theorem lookupStringNE_eq (g : List (Str × Json)) (k : Str) :
    lookupStringNE g k = nonEmptyOpt (lookupString g k) := by
  unfold lookupStringNE nonEmptyOpt
  cases lookupString g k <;> rfl

theorem delta_match_eq (choice : List (Str × Json)) :
    (match lastLookup choice ("delta".data) with
     | some (.obj delta) => nonEmptyOpt (lookupString delta ("content".data))
     | _ => none) =
      nonEmptyOpt
        (match lastLookup choice ("delta".data) with
         | some (.obj inner) => lookupString inner ("content".data)
         | _ => none) := by
  cases hd : lastLookup choice ("delta".data) with
  | none => rfl
  | some w => cases w <;> rfl

theorem choicesExtract_eq (g : List (Str × Json)) :
    choicesExtract g =
      match nonEmptyOpt (choice0PathContent g ("message".data)) with
      | some c => some c
      | none => nonEmptyOpt (choice0PathContent g ("delta".data)) := by
  unfold choicesExtract choice0PathContent
  cases h : lastLookup g ("choices".data) with
  | none => rfl
  | some v =>
    cases v <;> try rfl
    case arr xs =>
      cases xs with
      | nil => rfl
      | cons choice0 rest =>
        cases choice0 <;> try rfl
        case obj choice =>
          simp only [lookupStringNE_eq]
          cases hm : lastLookup choice ("message".data) with
          | none => exact delta_match_eq choice
          | some w =>
            cases w with
            | null => exact delta_match_eq choice
            | bool b => exact delta_match_eq choice
            | num q => exact delta_match_eq choice
            | str sv => exact delta_match_eq choice
            | arr xs2 => exact delta_match_eq choice
            | obj message =>
              dsimp only []
              cases hc : nonEmptyOpt (lookupString message ("content".data)) with
              | none => exact delta_match_eq choice
              | some c => rfl

/-- C5: the whole-body JSON fallback searches fields in exactly this order —
top-level `content`, then `choices[0].message.content`, then
`choices[0].delta.content`, then top-level `text`, then top-level
`completion` — and returns the first non-empty string match; if none matches
it returns the empty string. -/
theorem extractTextFromJSON_eq_spec (g : List (Str × Json)) :
    extractTextFromJSON g = specFieldSearch g := by
  unfold extractTextFromJSON specFieldSearch specCandidates
  simp only [lookupStringNE_eq, firstNonEmptyMatch, choicesExtract_eq]
  cases nonEmptyOpt (lookupString g ("content".data)) <;> dsimp only []
  cases nonEmptyOpt (choice0PathContent g ("message".data)) <;> dsimp only []

/-- C7: for every input sequence of Chat Turns, the Message Adapter returns a
sequence of equal length in the same order, and for each position the output
author is `assistant` exactly when the input role is `assistant`, and `user`
for every other role (including `system`). -/
theorem c7_convertMessages_shape (ms : List OpenAIMessage) :
    (convertMessages ms).length = ms.length ∧
    ∀ i : ℕ,
      ((convertMessages ms)[i]?).map RaycastMessage.author
        = (ms[i]?).map fun msg =>
            if msg.role = ("assistant".data) then ("assistant".data) else ("user".data) := by
  constructor
  · simp [convertMessages]
  · intro i
    simp only [convertMessages, List.getElem?_map]
    cases ms[i]? <;> rfl

/-- C8: for every Chat Turn the Message Adapter resolves content and never
fails — a plain string verbatim, an array of typed parts as the in-order
concatenation of the `text` of every part whose type is `text` (all other
part types contributing nothing), and any other content shape as the empty
string.  Stated as pointwise equality with the spec-side resolution. -/
theorem c8_content_resolution (ms : List OpenAIMessage) :
    (convertMessages ms).map RaycastMessage.contentText
      = ms.map fun msg => specResolveContent msg.content := by
  simp only [convertMessages, List.map_map]
  simp [Function.comp, resolveContent_eq_spec]

/-- C6: every Outbound Response Document produced by the non-streaming path
reports `finish_reason` equal to `length`, for every backend body — hence
regardless of any terminal signal observed while parsing the events. -/
theorem c6_finish_reason (bodyBytes : Str) (uu : Str) (now : ℤ) (modelId : Str) :
    (handleNonStreamingResponse bodyBytes uu now modelId).choices.map ChatChoice.finishReason
      = [("length".data)] := rfl

/-- C10: a chat-completions request whose `temperature` field is absent, or
explicitly equal to `0`, is forwarded to the backend with temperature `0.5`,
and no request at all can reach the backend with temperature exactly `0`. -/
theorem c10_temperature (rawMap : List (Str × Json)) :
    (lastLookup rawMap ("temperature".data) = none → effectiveTemperature rawMap = 1 / 2) ∧
    (lastLookup rawMap ("temperature".data) = some (Json.num 0) →
      effectiveTemperature rawMap = 1 / 2) ∧
    effectiveTemperature rawMap ≠ 0 := by
  refine ⟨?_, ?_, ?_⟩
  · intro h
    simp [effectiveTemperature, parsedTemperature, h]
  · intro h
    simp [effectiveTemperature, parsedTemperature, h]
  · unfold effectiveTemperature
    dsimp only []
    split
    · norm_num
    · assumption

/-- Witness for C10 at the empty raw request map and at an explicit zero. -/
theorem c10_temperature_witness :
    effectiveTemperature [] = 1 / 2 ∧
    effectiveTemperature [(("temperature".data), Json.num 0)] = 1 / 2 ∧
    effectiveTemperature [] ≠ 0 :=
  ⟨(c10_temperature []).1 rfl,
   (c10_temperature [(("temperature".data), Json.num 0)]).2.1 rfl,
   (c10_temperature []).2.2⟩

/-- C4: for every backend body from which line-by-line extraction and the
whole-body JSON fallback both yield no text, the produced document's message
content is the fixed placeholder notice — which is not the empty string —
and the handler still produces a document, never an error, for that reason. -/
theorem c4_placeholder (bodyBytes : Str) (uu : Str) (now : ℤ) (modelId : Str)
    (h1 : parseSSEResponse bodyBytes = [])
    (h2 : directJSONExtract bodyBytes = []) :
    (handleNonStreamingResponse bodyBytes uu now modelId).choices.map
        (fun ch => ch.message.content) = [extractionFailedNotice] ∧
    extractionFailedNotice ≠ [] := by
  constructor
  · simp [handleNonStreamingResponse, nonStreamingText, h1, h2]
  · decide

/-- Witness for C4 at the entirely empty backend body. -/
theorem c4_placeholder_witness :
    parseSSEResponse [] = [] ∧ directJSONExtract [] = [] ∧
    ((handleNonStreamingResponse [] ("u".data) 0 ("m".data)).choices.map
        (fun ch => ch.message.content) = [extractionFailedNotice] ∧
      extractionFailedNotice ≠ []) :=
  ⟨rfl, rfl, c4_placeholder [] ("u".data) 0 ("m".data) rfl rfl⟩

/-- Counterexample to C2 as stated: for the event payload
`\x7b"content":"hi"\x7d` the strict parse does not fail — Go ignores unknown
object members — so it succeeds with an empty `text`, the fallback never
runs, and the extracted fragment is the empty string, not `hi`. -/
theorem c2_counterexample :
    (jsonParse (goTrimSpace ("\x7b\"content\":\"hi\"\x7d".data))).bind unmarshalRaycastSSE
        = some ⟨[], []⟩ ∧
    parseSSEResponse ("data: \x7b\"content\":\"hi\"\x7d".data) = [] ∧
    parseSSEResponse ("data: \x7b\"content\":\"hi\"\x7d".data) ≠ ("hi".data) :=
  ⟨by decide, by decide, by decide⟩

/-- C2 (amended): the payload whose only member is a `content` string passes
the strict parse (unknown members ignored) with empty text and yields no
fragment; the layered fallback — top-level `text`, then top-level `content`,
then `message.content`, first non-empty match — applies only to payloads
whose strict parse errors, as witnessed by three such payloads. -/
theorem c2_amended_fallback :
    parseSSEResponse ("data: \x7b\"content\":\"hi\"\x7d".data) = [] ∧
    parseSSEResponse ("data: \x7b\"text\":123,\"content\":\"hi\"\x7d".data) = ("hi".data) ∧
    parseSSEResponse ("data: \x7b\"text\":\"T\",\"content\":\"C\",\"finish_reason\":5\x7d".data)
        = ("T".data) ∧
    parseSSEResponse ("data: \x7b\"finish_reason\":5,\"message\":\x7b\"content\":\"M\"\x7d\x7d".data)
        = ("M".data) :=
  ⟨by decide, by decide, by decide, by decide⟩

theorem readStringAux_nil (acc : Str) : readStringAux acc [] = [] := rfl

theorem readStringAux_cons (acc : Str) (c : Char) (cs : Str) :
    readStringAux acc (c :: cs)
      = if c = '\n' then (acc ++ [c]) :: readStringAux [] cs
        else readStringAux (acc ++ [c]) cs := rfl

theorem goSplitNLAux_nil (acc : Str) : goSplitNLAux acc [] = [acc] := rfl

theorem goSplitNLAux_cons (acc : Str) (c : Char) (cs : Str) :
    goSplitNLAux acc (c :: cs)
      = if c = '\n' then acc :: goSplitNLAux [] cs
        else goSplitNLAux (acc ++ [c]) cs := rfl

theorem streamLoopFull_nil (buffer : Str) (ctr : ℕ) (uu : ℕ → Str) (now : ℤ) (m : Str) :
    streamLoopFull [] buffer ctr uu now m = ([], buffer, ctr) := rfl

theorem streamLoopFull_cons (line : Str) (rest : List Str) (buffer : Str) (ctr : ℕ)
    (uu : ℕ → Str) (now : ℤ) (m : Str) :
    streamLoopFull (line :: rest) buffer ctr uu now m
      = if stringsHasSuffix (buffer ++ line) ("\n\n".data) then
          ((dispatchGroup (goSplitNL (buffer ++ line)) ctr uu now m).1
             ++ (streamLoopFull rest [] (dispatchGroup (goSplitNL (buffer ++ line)) ctr uu now m).2 uu now m).1,
           (streamLoopFull rest [] (dispatchGroup (goSplitNL (buffer ++ line)) ctr uu now m).2 uu now m).2)
        else streamLoopFull rest (buffer ++ line) ctr uu now m := rfl

theorem dispatchGroup_nil (ctr : ℕ) (uu : ℕ → Str) (now : ℤ) (m : Str) :
    dispatchGroup [] ctr uu now m = ([], ctr) := rfl

theorem dispatchGroup_cons (l : Str) (rest : List Str) (ctr : ℕ)
    (uu : ℕ → Str) (now : ℤ) (m : Str) :
    dispatchGroup (l :: rest) ctr uu now m
      = match dispatchLine l ctr uu now m with
        | some c => (c :: (dispatchGroup rest (ctr + 1) uu now m).1,
                     (dispatchGroup rest (ctr + 1) uu now m).2)
        | none => dispatchGroup rest ctr uu now m := rfl

theorem readStringAux_line (d : Str) (hd : '\n' ∉ d) :
    ∀ (acc r : Str), readStringAux acc (d ++ '\n' :: r)
      = (acc ++ d ++ ['\n']) :: readStringAux [] r := by
  induction d with
  | nil =>
    intro acc r
    simp [readStringAux_cons]
  | cons c d2 ih =>
    intro acc r
    have hc : c ≠ '\n' := fun h => hd (h ▸ List.mem_cons_self c d2)
    have hd2 : '\n' ∉ d2 := fun h => hd (List.mem_cons_of_mem c h)
    rw [List.cons_append, readStringAux_cons, if_neg (fun h => hc (by simpa using h)), ih hd2]
    simp

theorem readStringAux_append (xs : Str) :
    ∀ (t acc : Str), xs.getLast? = some '\n' →
      readStringAux acc (xs ++ t) = readStringAux acc xs ++ readStringAux [] t := by
  induction xs with
  | nil => intro t acc h; simp at h
  | cons c xs2 ih =>
    intro t acc h
    cases xs2 with
    | nil =>
      have hc : c = '\n' := by simpa using h
      subst hc
      rw [List.cons_append, readStringAux_cons, readStringAux_cons]
      simp [readStringAux_nil]
    | cons d xs3 =>
      have h2 : (d :: xs3).getLast? = some '\n' := by
        rwa [List.getLast?_cons_cons] at h
      rw [List.cons_append, readStringAux_cons, readStringAux_cons]
      by_cases hc : c = '\n'
      · rw [if_pos hc, if_pos hc, ih t [] h2, List.cons_append]
      · rw [if_neg hc, if_neg hc, ih t (acc ++ [c]) h2]

theorem goSplitNLAux_line (d : Str) (hd : '\n' ∉ d) :
    ∀ (acc r : Str), goSplitNLAux acc (d ++ '\n' :: r)
      = (acc ++ d) :: goSplitNLAux [] r := by
  induction d with
  | nil =>
    intro acc r
    simp [goSplitNLAux_cons]
  | cons c d2 ih =>
    intro acc r
    have hc : c ≠ '\n' := fun h => hd (h ▸ List.mem_cons_self c d2)
    have hd2 : '\n' ∉ d2 := fun h => hd (List.mem_cons_of_mem c h)
    rw [List.cons_append, goSplitNLAux_cons, if_neg (fun h => hc (by simpa using h)), ih hd2]
    simp

theorem hasSuffix_nn_true (xs : Str) :
    stringsHasSuffix (xs ++ ('\n' :: ['\n'])) ("\n\n".data) = true := by
  have hrev : ("\n\n".data).reverse = '\n' :: ['\n'] := rfl
  unfold stringsHasSuffix
  rw [hrev, List.reverse_append]
  simp [strDropPre]

theorem hasSuffix_nn_false (buffer core : Str) (h1 : '\n' ∉ core) (h2 : core ≠ []) :
    stringsHasSuffix (buffer ++ (core ++ ['\n'])) ("\n\n".data) = false := by
  obtain ⟨e, w2, he⟩ : ∃ e w2, core.reverse = e :: w2 := by
    cases hc : core.reverse with
    | nil => exact absurd (List.reverse_eq_nil_iff.mp hc) h2
    | cons e w2 => exact ⟨e, w2, rfl⟩
  have hee : e ∈ core := by
    have : e ∈ core.reverse := by rw [he]; exact List.mem_cons_self e w2
    simpa using this
  have hne : '\n' ≠ e := fun hh => h1 (hh ▸ hee)
  have hrev : ("\n\n".data).reverse = '\n' :: ['\n'] := rfl
  unfold stringsHasSuffix
  rw [hrev]
  simp [List.reverse_append, he, strDropPre, hne]

theorem trimSpace_cons_space (c : Char) (l : Str) (h : goIsSpace c = true) :
    goTrimSpace (c :: l) = goTrimSpace l := by
  simp [goTrimSpace, List.dropWhile_cons, h]

theorem trimSpace_ne_nil (c : Char) (l : Str) (h : goIsSpace c = false) :
    goTrimSpace (c :: l) ≠ [] := by
  unfold goTrimSpace
  rw [List.dropWhile_cons]
  rw [h]
  simp only [Bool.false_eq_true, if_false]
  intro hcontra
  have h2 : (c :: l).reverse.dropWhile goIsSpace = [] := by
    simpa using hcontra
  have h3 : ∀ x ∈ (c :: l).reverse, goIsSpace x = true :=
    List.dropWhile_eq_nil_iff.mp h2
  have h4 : goIsSpace c = true := h3 c (by simp)
  rw [h] at h4
  exact absurd h4 (by simp)

theorem readStringAux_wf (body : Str) :
    ∀ (acc : Str), '\n' ∉ acc →
      ∀ l ∈ readStringAux acc body, ∃ core, l = core ++ ['\n'] ∧ '\n' ∉ core := by
  induction body with
  | nil =>
    intro acc _ l hl
    simp [readStringAux_nil] at hl
  | cons c cs ih =>
    intro acc hacc l hl
    rw [readStringAux_cons] at hl
    by_cases hc : c = '\n'
    · rw [if_pos hc] at hl
      rcases List.mem_cons.mp hl with h1 | h1
      · refine ⟨acc, ?_, hacc⟩
        rw [h1, hc]
      · exact ih [] (by simp) l h1
    · rw [if_neg hc] at hl
      refine ih (acc ++ [c]) ?_ l hl
      intro hmem
      rcases List.mem_append.mp hmem with h1 | h1
      · exact hacc h1
      · have h5 : '\n' = c := by simpa using h1
        exact hc h5.symm

theorem streamLoopFull_append (uu : ℕ → Str) (now : ℤ) (m : Str) :
    ∀ (rs ts : List Str) (buffer : Str) (ctr : ℕ),
      streamLoopFull (rs ++ ts) buffer ctr uu now m
        = ((streamLoopFull rs buffer ctr uu now m).1
             ++ (streamLoopFull ts (streamLoopFull rs buffer ctr uu now m).2.1
                   (streamLoopFull rs buffer ctr uu now m).2.2 uu now m).1,
           (streamLoopFull ts (streamLoopFull rs buffer ctr uu now m).2.1
              (streamLoopFull rs buffer ctr uu now m).2.2 uu now m).2) := by
  intro rs
  induction rs with
  | nil =>
    intro ts buffer ctr
    simp [streamLoopFull_nil]
  | cons line rest ih =>
    intro ts buffer ctr
    rw [List.cons_append, streamLoopFull_cons, streamLoopFull_cons]
    by_cases hs : stringsHasSuffix (buffer ++ line) ("\n\n".data) = true
    · rw [if_pos hs, if_pos hs, ih]
      simp [List.append_assoc]
    · rw [if_neg hs, if_neg hs, ih]

theorem streamLoopFull_no_blank (uu : ℕ → Str) (now : ℤ) (m : Str) :
    ∀ (ts : List Str) (buffer : Str) (ctr : ℕ),
      (∀ l ∈ ts, (∃ core, l = core ++ ['\n'] ∧ '\n' ∉ core) ∧ l ≠ ['\n']) →
      (streamLoopFull ts buffer ctr uu now m).1 = [] := by
  intro ts
  induction ts with
  | nil => intro buffer ctr _; rfl
  | cons l rest ih =>
    intro buffer ctr h
    obtain ⟨⟨core, hcore, hnl⟩, hne⟩ := h l (List.mem_cons_self l rest)
    have hcne : core ≠ [] := by
      intro hc
      exact hne (by rw [hcore, hc]; rfl)
    have hs : stringsHasSuffix (buffer ++ l) ("\n\n".data) = false := by
      rw [hcore]
      exact hasSuffix_nn_false buffer core hnl hcne
    rw [streamLoopFull_cons, if_neg (by simp [hs])]
    exact ih (buffer ++ l) ctr (fun l2 hl2 => h l2 (List.mem_cons_of_mem l hl2))

/-- C9: an event group whose lines are buffered but never followed by a
blank-line terminator before end-of-stream is never dispatched: appending
such a trailing unterminated tail to a cleanly terminated body leaves the
emitted chunks unchanged, and the `[DONE]` sentinel is still written, last. -/
theorem c9_trailing_group (body tail : Str) (uu : ℕ → Str) (now : ℤ) (m : Str)
    (hb : body = [] ∨ body.getLast? = some '\n')
    (ht : ∀ l ∈ readStringLines tail, l ≠ ['\n']) :
    streamChunks (body ++ tail) uu now m = streamChunks body uu now m ∧
    handleStreamingResponse (body ++ tail) uu now m
      = (streamChunks body uu now m).map OutEvent.chunk ++ [OutEvent.done] := by
  have hdecomp : readStringLines (body ++ tail)
      = readStringLines body ++ readStringLines tail := by
    rcases hb with hb | hb
    · subst hb; rfl
    · exact readStringAux_append body tail [] hb
  have hchunks : streamChunks (body ++ tail) uu now m = streamChunks body uu now m := by
    unfold streamChunks readStringLines
    unfold readStringLines at hdecomp
    rw [hdecomp, streamLoopFull_append]
    have hwf := readStringAux_wf tail [] (by simp)
    have hnb := streamLoopFull_no_blank uu now m (readStringAux [] tail)
      (streamLoopFull (readStringAux [] body) [] 0 uu now m).2.1
      (streamLoopFull (readStringAux [] body) [] 0 uu now m).2.2
      (fun l hl => ⟨hwf l hl, ht l hl⟩)
    simp [hnb]
  refine ⟨hchunks, ?_⟩
  unfold handleStreamingResponse
  rw [hchunks]

theorem dispatchLine_id (l : Str) (ctr : ℕ) (uu : ℕ → Str) (now : ℤ) (m : Str)
    (c : StreamChunk) (h : dispatchLine l ctr uu now m = some c) :
    c.id = ("chatcmpl-".data) ++ uu ctr := by
  unfold dispatchLine at h
  by_cases h1 : goTrimSpace l = []
  · rw [if_pos h1] at h
    exact absurd h (by simp)
  · rw [if_neg h1] at h
    by_cases h2 : stringsHasPre l ("data:".data) = true
    · rw [if_pos h2] at h
      dsimp only [] at h
      rcases hjp : (jsonParse (goTrimSpace (stringsTrimPre l ("data:".data)))).bind unmarshalRaycastSSE
        with _ | r
      · rw [hjp] at h
        exact absurd h (by simp)
      · rw [hjp] at h
        have h3 := Option.some.inj h
        rw [← h3]
        rfl
    · rw [if_neg (by simpa using h2)] at h
      exact absurd h (by simp)

theorem dispatchGroup_ids (uu : ℕ → Str) (now : ℤ) (m : Str) :
    ∀ (ls : List Str) (ctr : ℕ),
      (dispatchGroup ls ctr uu now m).1.map StreamChunk.id
          = (List.range (dispatchGroup ls ctr uu now m).1.length).map
              (fun k => ("chatcmpl-".data) ++ uu (ctr + k)) ∧
      (dispatchGroup ls ctr uu now m).2 = ctr + (dispatchGroup ls ctr uu now m).1.length := by
  intro ls
  induction ls with
  | nil => intro ctr; simp [dispatchGroup_nil]
  | cons l rest ih =>
    intro ctr
    rw [dispatchGroup_cons]
    cases hdl : dispatchLine l ctr uu now m with
    | none => simpa using ih ctr
    | some c =>
      obtain ⟨ih1, ih2⟩ := ih (ctr + 1)
      constructor
      · simp only [List.map_cons, List.length_cons, List.range_succ_eq_map, ih1,
          dispatchLine_id l ctr uu now m c hdl, List.map_map]
        refine congrArg₂ List.cons (by simp) ?_
        apply List.map_congr_left
        intro k _
        have hk : ctr + 1 + k = ctr + Nat.succ k := by omega
        simp [Function.comp, hk]
      · simp only [List.length_cons]
        omega

theorem streamLoopFull_ids (uu : ℕ → Str) (now : ℤ) (m : Str) :
    ∀ (reads : List Str) (buffer : Str) (ctr : ℕ),
      (streamLoopFull reads buffer ctr uu now m).1.map StreamChunk.id
          = (List.range (streamLoopFull reads buffer ctr uu now m).1.length).map
              (fun k => ("chatcmpl-".data) ++ uu (ctr + k)) ∧
      (streamLoopFull reads buffer ctr uu now m).2.2
          = ctr + (streamLoopFull reads buffer ctr uu now m).1.length := by
  intro reads
  induction reads with
  | nil => intro buffer ctr; simp [streamLoopFull_nil]
  | cons line rest ih =>
    intro buffer ctr
    rw [streamLoopFull_cons]
    by_cases hs : stringsHasSuffix (buffer ++ line) ("\n\n".data) = true
    · rw [if_pos hs]
      obtain ⟨hg1, hg2⟩ := dispatchGroup_ids uu now m (goSplitNL (buffer ++ line)) ctr
      obtain ⟨hl1, hl2⟩ := ih [] (dispatchGroup (goSplitNL (buffer ++ line)) ctr uu now m).2
      rw [hg2] at hl1 hl2 ⊢
      constructor
      · simp only [List.map_append, List.length_append, hg1, hl1, List.range_add,
          List.map_map]
        refine congrArg₂ (· ++ ·) rfl ?_
        apply List.map_congr_left
        intro k _
        have hk : ctr + (dispatchGroup (goSplitNL (buffer ++ line)) ctr uu now m).1.length + k
            = ctr + ((dispatchGroup (goSplitNL (buffer ++ line)) ctr uu now m).1.length + k) := by
          omega
        simp [Function.comp, hk]
      · simp only [List.length_append]
        omega
    · rw [if_neg hs]
      exact ih (buffer ++ line) ctr

/-- C1 (amended): the streaming path generates the response identifier
freshly for every chunk, not once per request — the k-th emitted chunk of a
request carries the k-th drawn identifier. -/
theorem c1_chunk_ids (body : Str) (uu : ℕ → Str) (now : ℤ) (modelId : Str) :
    (streamChunks body uu now modelId).map StreamChunk.id
      = (List.range (streamChunks body uu now modelId).length).map
          (fun k => ("chatcmpl-".data) ++ uu k) := by
  have h := (streamLoopFull_ids uu now modelId (readStringLines body) [] 0).1
  unfold streamChunks
  simpa using h

/-- Counterexample to C1 as stated: within one and the same streaming
request, two emitted chunks carry different response identifiers when the
uuid draws differ. -/
theorem c1_counterexample :
    ∃ c1 ∈ streamChunks
        (("data: \x7b\"text\":\"A\"\x7d\n\ndata: \x7b\"text\":\"B\"\x7d\n\n").data)
        (fun n => if n = 0 then ("u0".data) else ("u1".data)) 0 ("m".data),
      ∃ c2 ∈ streamChunks
          (("data: \x7b\"text\":\"A\"\x7d\n\ndata: \x7b\"text\":\"B\"\x7d\n\n").data)
          (fun n => if n = 0 then ("u0".data) else ("u1".data)) 0 ("m".data),
        c1.id ≠ c2.id := by decide

theorem dataLine_cons (d : Str) : ("data: ".data) ++ d = 'd' :: (("ata: ".data) ++ d) := rfl

theorem dispatchLine_data (d : Str) (ctr : ℕ) (uu : ℕ → Str) (now : ℤ) (m : Str)
    (r : RaycastSSEData)
    (hr : (jsonParse (goTrimSpace d)).bind unmarshalRaycastSSE = some r) :
    dispatchLine (("data: ".data) ++ d) ctr uu now m = some (mkChunk (uu ctr) now m r) := by
  unfold dispatchLine
  rw [if_neg ?tne]
  case tne =>
    rw [dataLine_cons]
    exact trimSpace_ne_nil 'd' _ (by decide)
  have hpre : strDropPre ("data:".data) (("data: ".data) ++ d) = some (' ' :: d) := by
    rw [dataLine_cons]
    simp [strDropPre]
  rw [if_pos ?hp]
  case hp =>
    unfold stringsHasPre
    rw [hpre]
    rfl
  have htrim : stringsTrimPre (("data: ".data) ++ d) ("data:".data) = ' ' :: d := by
    unfold stringsTrimPre
    rw [hpre]
  dsimp only []
  rw [htrim, trimSpace_cons_space ' ' d (by decide), hr]

theorem streamLoop_group_step (d : Str) (rest : List Str) (ctr : ℕ)
    (uu : ℕ → Str) (now : ℤ) (m : Str) (r : RaycastSSEData)
    (hd : '\n' ∉ d)
    (hr : (jsonParse (goTrimSpace d)).bind unmarshalRaycastSSE = some r) :
    streamLoopFull ((("data: ".data) ++ d ++ ['\n']) :: ['\n'] :: rest) [] ctr uu now m
      = (mkChunk (uu ctr) now m r :: (streamLoopFull rest [] (ctr + 1) uu now m).1,
         (streamLoopFull rest [] (ctr + 1) uu now m).2) := by
  have hcore : '\n' ∉ ("data: ".data) ++ d := by
    intro hmem
    rcases List.mem_append.mp hmem with h1 | h1
    · exact absurd h1 (by decide)
    · exact hd h1
  have hcne : ("data: ".data) ++ d ≠ [] := by
    rw [dataLine_cons]
    exact List.cons_ne_nil _ _
  rw [streamLoopFull_cons]
  rw [if_neg ?neg1]
  case neg1 =>
    have hs1 := hasSuffix_nn_false [] (("data: ".data) ++ d) hcore hcne
    intro hcontra
    rw [hs1] at hcontra
    exact absurd hcontra (by decide)
  rw [List.nil_append, streamLoopFull_cons]
  have hs2 : stringsHasSuffix ((("data: ".data) ++ d ++ ['\n']) ++ ['\n']) ("\n\n".data)
      = true := by
    have := hasSuffix_nn_true (("data: ".data) ++ d)
    simpa [List.append_assoc] using this
  rw [if_pos hs2]
  have hsplit : goSplitNL ((("data: ".data) ++ d ++ ['\n']) ++ ['\n'])
      = [("data: ".data) ++ d, [], []] := by
    unfold goSplitNL
    have h1 := goSplitNLAux_line (("data: ".data) ++ d) hcore [] ('\n' :: [])
    simp only [List.append_assoc, List.cons_append, List.nil_append] at h1 ⊢
    rw [h1]
    rfl
  rw [hsplit]
  rw [dispatchGroup_cons, dispatchLine_data d ctr uu now m r hr]
  have hrest : dispatchGroup [[], []] (ctr + 1) uu now m = ([], ctr + 1) := rfl
  dsimp only []
  rw [hrest]
  rfl

theorem noNL_dataLine (d : Str) (hd : '\n' ∉ d) : '\n' ∉ ("data: ".data) ++ d := by
  intro hmem
  rcases List.mem_append.mp hmem with h1 | h1
  · exact absurd h1 (by decide)
  · exact hd h1

/-- C3: for an upstream stream consisting of two well-formed events followed
by clean end-of-stream, the outbound stream contains exactly two data chunks
whose order matches the input order, followed by exactly one `[DONE]`
sentinel, and no chunk after the sentinel. -/
theorem c3_two_events (d1 d2 : Str) (r1 r2 : RaycastSSEData)
    (uu : ℕ → Str) (now : ℤ) (modelId : Str)
    (h1 : '\n' ∉ d1) (h2 : '\n' ∉ d2)
    (h3 : (jsonParse (goTrimSpace d1)).bind unmarshalRaycastSSE = some r1)
    (h4 : (jsonParse (goTrimSpace d2)).bind unmarshalRaycastSSE = some r2) :
    handleStreamingResponse
        (("data: ".data) ++ d1 ++ ("\n\ndata: ".data) ++ d2 ++ ("\n\n".data)) uu now modelId
      = [OutEvent.chunk (mkChunk (uu 0) now modelId r1),
         OutEvent.chunk (mkChunk (uu 1) now modelId r2),
         OutEvent.done] := by
  have e1 : ("\n\ndata: ".data : Str) = '\n' :: '\n' :: ("data: ".data) := rfl
  have e2 : ("\n\n".data : Str) = '\n' :: '\n' :: [] := rfl
  have hbody : (("data: ".data) ++ d1 ++ ("\n\ndata: ".data) ++ d2 ++ ("\n\n".data))
      = (("data: ".data) ++ d1) ++ '\n' :: ('\n' :: ((("data: ".data) ++ d2)
          ++ '\n' :: ('\n' :: []))) := by
    rw [e1, e2]
    simp [List.append_assoc]
  have hreads : readStringLines
        (("data: ".data) ++ d1 ++ ("\n\ndata: ".data) ++ d2 ++ ("\n\n".data))
      = ((("data: ".data) ++ d1) ++ ['\n']) :: ['\n']
          :: ((("data: ".data) ++ d2) ++ ['\n']) :: ['\n'] :: [] := by
    unfold readStringLines
    rw [hbody]
    rw [readStringAux_line (("data: ".data) ++ d1) (noNL_dataLine d1 h1)]
    rw [readStringAux_cons, if_pos rfl]
    rw [readStringAux_line (("data: ".data) ++ d2) (noNL_dataLine d2 h2)]
    rw [readStringAux_cons, if_pos rfl, readStringAux_nil]
    simp
  unfold handleStreamingResponse streamChunks
  rw [hreads]
  rw [show ((("data: ".data) ++ d1) ++ ['\n']) :: ['\n']
        :: ((("data: ".data) ++ d2) ++ ['\n']) :: ['\n'] :: []
      = (("data: ".data) ++ d1 ++ ['\n']) :: ['\n']
        :: ((("data: ".data) ++ d2 ++ ['\n']) :: ['\n'] :: []) from rfl]
  rw [streamLoop_group_step d1 _ 0 uu now modelId r1 h1 h3]
  rw [streamLoop_group_step d2 [] (0 + 1) uu now modelId r2 h2 h4]
  rw [streamLoopFull_nil]
  simp

/-- Witness for C3 at two concrete well-formed events. -/
theorem c3_two_events_witness :
    ('\n') ∉ ("\x7b\"text\":\"Hello\"\x7d".data) ∧
    (jsonParse (goTrimSpace ("\x7b\"text\":\"Hello\"\x7d".data))).bind unmarshalRaycastSSE
        = some ⟨("Hello".data), []⟩ ∧
    handleStreamingResponse
        (("data: ".data) ++ ("\x7b\"text\":\"Hello\"\x7d".data) ++ ("\n\ndata: ".data)
          ++ ("\x7b\"text\":\" there\",\"finish_reason\":\"stop\"\x7d".data) ++ ("\n\n".data))
        (fun n => if n = 0 then ("u0".data) else ("u1".data)) 5 ("gpt".data)
      = [OutEvent.chunk (mkChunk ("u0".data) 5 ("gpt".data) ⟨("Hello".data), []⟩),
         OutEvent.chunk (mkChunk ("u1".data) 5 ("gpt".data)
           ⟨(" there".data), ("stop".data)⟩),
         OutEvent.done] :=
  ⟨by decide, by decide,
   c3_two_events ("\x7b\"text\":\"Hello\"\x7d".data)
     ("\x7b\"text\":\" there\",\"finish_reason\":\"stop\"\x7d".data)
     ⟨("Hello".data), []⟩ ⟨(" there".data), ("stop".data)⟩
     (fun n => if n = 0 then ("u0".data) else ("u1".data)) 5 ("gpt".data)
     (by decide) (by decide) (by decide) (by decide)⟩

/-- Witness for C9: a terminated event group followed by an unterminated
`data:` line holding a parseable fragment, which is silently dropped. -/
theorem c9_trailing_group_witness :
    streamChunks (("data: \x7b\"text\":\"A\"\x7d\n\n".data)
          ++ ("data: \x7b\"text\":\"lost\"\x7d\n".data)) (fun _ => ("u".data)) 0 ("m".data)
        = streamChunks ("data: \x7b\"text\":\"A\"\x7d\n\n".data)
            (fun _ => ("u".data)) 0 ("m".data) ∧
    handleStreamingResponse (("data: \x7b\"text\":\"A\"\x7d\n\n".data)
          ++ ("data: \x7b\"text\":\"lost\"\x7d\n".data)) (fun _ => ("u".data)) 0 ("m".data)
        = (streamChunks ("data: \x7b\"text\":\"A\"\x7d\n\n".data)
            (fun _ => ("u".data)) 0 ("m".data)).map OutEvent.chunk ++ [OutEvent.done] :=
  c9_trailing_group ("data: \x7b\"text\":\"A\"\x7d\n\n".data)
    ("data: \x7b\"text\":\"lost\"\x7d\n".data) (fun _ => ("u".data)) 0 ("m".data)
    (Or.inr (by decide)) (by decide)
